import Mathlib

/-!
Verification of the Quizly video-to-quiz pipeline
(`apps/quiz_management_app/utils.py`) against its specification.

Python strings are modelled as `List Char`; Python `dict`s coming from
decoded JSON are modelled as association lists (JSON objects cannot carry
duplicate keys, and CPython dict lookup is observationally first-match on
such lists).  Fallible Python code is modelled with `Except PyExc`.
External collaborators (yt-dlp, Whisper, Gemini, the JSON decoder, the
database) are oracles supplied through an environment record, so every
theorem quantifies over all of their possible behaviours.
-/

deriving instance DecidableEq for Except

namespace Quizly

/-- Python `str`, modelled as a list of characters. -/
abbrev PyStr := List Char

/-- Coerce a Lean string literal to the `PyStr` model. -/
def pys (s : String) : PyStr := s.data

/-- Model of Python `str.lstrip()` (no argument): drop leading whitespace. -/
def pyLStrip (s : PyStr) : PyStr := s.dropWhile Char.isWhitespace

/-- Model of Python `str.rstrip()` (no argument): drop trailing whitespace. -/
def pyRStrip (s : PyStr) : PyStr := (s.reverse.dropWhile Char.isWhitespace).reverse

/-- Model of Python `str.strip()` (no argument): drop surrounding whitespace. -/
def pyStrip (s : PyStr) : PyStr := pyRStrip (pyLStrip s)

/-- Model of Python `str.lower()` for the characters that occur in URLs. -/
def pyLower (s : PyStr) : PyStr := s.map Char.toLower

/-- Model of Python `needle in hay` substring membership test. -/
def pyContains (hay needle : PyStr) : Bool :=
  match hay with
  | [] => needle.isEmpty
  | c :: t => needle.isPrefixOf (c :: t) || pyContains t needle

/-- Recursion core of `pyReplace`.  The fuel argument is a structural bound
on the recursion (the scan consumes at least one character per step), kept
explicit so the function reduces inside the kernel; `pyReplaceGo_eq` shows
the result does not depend on the fuel once it bounds the length. -/
def pyReplaceGo (needle rep : PyStr) : Nat → PyStr → PyStr
  | _, [] => []
  | 0, s => s
  | fuel + 1, c :: cs =>
    if 0 < needle.length ∧ needle.isPrefixOf (c :: cs) = true then
      rep ++ pyReplaceGo needle rep fuel ((c :: cs).drop needle.length)
    else
      c :: pyReplaceGo needle rep fuel cs

/-- Model of Python `str.replace(needle, rep)` for a non-empty `needle`:
replace all non-overlapping occurrences, scanning left to right.  (CPython
treats an empty needle specially; the pipeline never uses one, and this
model keeps the string unchanged in that case.) -/
def pyReplace (needle rep s : PyStr) : PyStr := pyReplaceGo needle rep s.length s

/-- The backtick character (written via its code point). -/
def backtick : Char := Char.ofNat 96

/-- Python exceptions that can travel through the pipeline.
`quizCreationError` and `invalidYouTubeUrlError` are the two classes the
module defines; `nameError` models CPython `NameError`; `keyError` models
CPython `KeyError`; `otherError name msg` models any other exception class
(for example one raised inside the Gemini client or the database driver). -/
inductive PyExc where
  | quizCreationError (msg : PyStr) : PyExc
  | invalidYouTubeUrlError (msg : PyStr) : PyExc
  | nameError (msg : PyStr) : PyExc
  | keyError (msg : PyStr) : PyExc
  | otherError (name msg : PyStr) : PyExc
deriving DecidableEq

/-- Model of Python `str(e)` on an exception: its message. -/
def PyExc.pyStrOf : PyExc → PyStr
  | .quizCreationError m => m
  | .invalidYouTubeUrlError m => m
  | .nameError m => m
  | .keyError m => m
  | .otherError _ m => m

/-- Shorthand for raising `QuizCreationError(msg)`. -/
def qce (msg : String) : PyExc := .quizCreationError (pys msg)

-- -----------------------------
-- URL helpers (utils.py lines 54-77)
-- -----------------------------

/-- `_YT_SHORT_PREFIX = "https://youtu.be/"`. -/
def YT_SHORT_PREFIX : PyStr := pys "https://youtu.be/"

/-- `_YT_WATCH_PREFIX = "https://www.youtube.com/watch?v="`. -/
def YT_WATCH_PREFIX : PyStr := pys "https://www.youtube.com/watch?v="

/-- Model of `normalize_youtube_url` (utils.py lines 58-69):
`url = (url or "").strip()`; if it starts with the short prefix, return
`url.split("?", 1)[0].replace(_YT_SHORT_PREFIX, _YT_WATCH_PREFIX)`;
otherwise return the stripped url.  `split("?", 1)[0]` is the part of the
string before its first `?`, i.e. `takeWhile (· ≠ '?')`. -/
def normalize_youtube_url (url : PyStr) : PyStr :=
  let url := pyStrip url
  if YT_SHORT_PREFIX.isPrefixOf url then
    pyReplace YT_SHORT_PREFIX YT_WATCH_PREFIX (url.takeWhile (fun c => c ≠ '?'))
  else
    url

/-- Model of `is_youtube_url` (utils.py lines 72-77):
`u = (url or "").lower()`; `"youtube.com/" in u or "youtu.be/" in u`. -/
def is_youtube_url (url : PyStr) : Bool :=
  pyContains (pyLower url) (pys "youtube.com/") ||
    pyContains (pyLower url) (pys "youtu.be/")

-- -----------------------------
-- JSON values and response parsing (utils.py lines 313-333)
-- -----------------------------

/-- Decoded JSON values (the possible results of Python `json.loads`).
Objects are association lists; `json.loads` never produces an object with
duplicate keys, and dict lookup is modelled first-match. -/
inductive JValue where
  | null : JValue
  | bool (b : Bool) : JValue
  | num (n : Int) : JValue
  | str (s : PyStr) : JValue
  | arr (xs : List JValue) : JValue
  | obj (fields : List (PyStr × JValue)) : JValue

/-- Model of Python `d.get(k)` / `k in d` on a decoded JSON object:
first-match association-list lookup. -/
def jget (fields : List (PyStr × JValue)) (k : PyStr) : Option JValue :=
  match fields with
  | [] => none
  | (k', v) :: t => if k' = k then some v else jget t k

/-- Extract the string payload of a JSON value, if it is a string. -/
def JValue.asStr : JValue → Option PyStr
  | .str s => some s
  | _ => none

/-- Model of `extract_json` (utils.py lines 313-321):
`re.sub(r"^[^{]*", "", text)` deletes the maximal prefix of characters
other than `{` (the pattern is anchored at the start and `[^{]*` is
greedy), then `.replace` with an empty replacement deletes every backtick,
then `.strip()` trims surrounding whitespace. -/
def extract_json (text : PyStr) : PyStr :=
  pyStrip (pyReplace [backtick] [] (text.dropWhile (fun c => c ≠ '{')))

/-- Model of `parse_quiz_json` (utils.py lines 324-333), parametrised by
the behaviour of `json.loads` (`decode` returns the decoded value or the
message of the `json.JSONDecodeError` it raises). -/
def parse_quiz_json (decode : PyStr → Except PyStr JValue) (text : PyStr) :
    Except PyExc JValue :=
  match decode (extract_json text) with
  | .ok v => .ok v
  | .error e => .error (.quizCreationError (pys "Gemini returned invalid JSON: " ++ e))

-- -----------------------------
-- Payload validation (utils.py lines 336-379)
-- -----------------------------

/-- Model of the per-option test `isinstance(o, str) and o.strip()`. -/
def isNonEmptyStr (o : JValue) : Bool :=
  match o with
  | .str s => !(pyStrip s).isEmpty
  | _ => false

/-- The string payloads of the values in a list that are strings. -/
def strsOf (os : List JValue) : List PyStr := os.filterMap JValue.asStr

/-- Model of `_validate_question` (utils.py lines 355-379).  The checks run
in source order with the first failure raised.  When the distinctness check
`len(set(opts)) != 4` and the membership check `ans not in opts` run, the
preceding check has already established that every option is a string (the
function raised otherwise), so both are computed on the options' string
payloads, exactly as the CPython set and membership operators compare them. -/
def _validate_question (q : JValue) : Except PyExc Unit :=
  match q with
  | .obj fs =>
    let title := jget fs (pys "question_title")
    let opts := jget fs (pys "question_options")
    let ans := jget fs (pys "answer")
    match title with
    | some (.str t) =>
      if (pyStrip t).isEmpty then
        .error (qce "Each question must have a non-empty question_title.")
      else
        match opts with
        | some (.arr os) =>
          if os.length ≠ 4 then
            .error (qce "Each question must have exactly 4 options.")
          else if ¬ (os.all isNonEmptyStr) then
            .error (qce "All options must be non-empty strings.")
          else if (strsOf os).dedup.length ≠ 4 then
            .error (qce "Options must be distinct.")
          else
            match ans with
            | some (.str a) =>
              if (strsOf os).contains a then .ok ()
              else .error (qce "Answer must be one of the options.")
            | _ => .error (qce "Answer must be one of the options.")
        | _ => .error (qce "Each question must have exactly 4 options.")
    | _ => .error (qce "Each question must have a non-empty question_title.")
  | _ => .error (qce "Invalid question payload.")

/-- Model of the loop `for q in questions: _validate_question(q)`
(utils.py lines 351-352): the first raised error propagates. -/
def validateQuestionList : List JValue → Except PyExc Unit
  | [] => .ok ()
  | q :: t =>
    match _validate_question q with
    | .ok _ => validateQuestionList t
    | .error e => .error e

/-- Model of `validate_quiz_payload` (utils.py lines 336-352). -/
def validate_quiz_payload (payload : JValue) : Except PyExc Unit :=
  match payload with
  | .obj fs =>
    if (jget fs (pys "title")).isNone ∨ (jget fs (pys "description")).isNone ∨
        (jget fs (pys "questions")).isNone then
      .error (qce "Gemini payload missing required keys.")
    else
      match jget fs (pys "questions") with
      | some (.arr qs) =>
        if qs.length ≠ 10 then
          .error (qce "Gemini payload must contain exactly 10 questions.")
        else
          validateQuestionList qs
      | _ => .error (qce "Gemini payload must contain exactly 10 questions.")
  | _ => .error (qce "Invalid quiz payload type.")

-- -----------------------------
-- Orchestrator model (utils.py lines 99-310, 385-407)
-- -----------------------------

/-- Observable actions of one pipeline run, recorded in order. -/
inductive Event where
  | tempCreated : Event
  | downloadStarted : Event
  | transcribeStarted : Event
  | aiCalled : Event
  | persistStarted : Event
  | cleanupRan : Event
deriving DecidableEq

/-- Mutable world of one pipeline run: whether the temporary base
file and its derived `.mp3` file currently exist on disk, the process-wide
`_whisper_model` global, and the recorded events. -/
structure RS where
  baseExists : Bool
  mp3Exists : Bool
  whisperCache : Option Nat
  events : List Event
deriving DecidableEq

/-- World at the start of a run: the temporary paths of the run do not exist
yet, and the whisper global holds whatever earlier runs left in it. -/
def initRS (cache0 : Option Nat) : RS :=
  { baseExists := false, mp3Exists := false, whisperCache := cache0, events := [] }

/-- Append an event to the event record of the run. -/
def record (s : RS) (e : Event) : RS := { s with events := s.events ++ [e] }

/-- Behaviour of all external collaborators during one run: yt-dlp, the
Whisper loader and transcriber, the Gemini configuration and client, the
JSON decoder, and the database.  Theorems quantify over this record. -/
structure Env where
  /-- exception raised inside `ydl.download`, if any -/
  downloadExc : Option PyExc
  /-- whether a partial mp3 file was written before the download failed -/
  mp3OnFailure : Bool
  /-- raw `settings.WHISPER_DOWNLOAD_ROOT` -/
  whisperDownloadRoot : PyStr
  /-- result of `whisper.load_model` -/
  whisperLoadResult : Except PyExc Nat
  /-- `model.transcribe(...)` either raises, or yields a dict whose
  `result.get("text")` is this optional value -/
  transcribeResult : Except PyExc (Option JValue)
  /-- `settings.GEMINI_API_KEY` -/
  geminiApiKey : Option PyStr
  /-- the Gemini call either raises, or returns a response whose
  `getattr(resp, "text", None)` is this optional value -/
  aiResp : Except PyExc (Option JValue)
  /-- behaviour of `json.loads`: decoded value or decoder error message -/
  jsonDecode : PyStr → Except PyStr JValue
  /-- `_persist_quiz` as seen by the orchestrator: raises or returns a quiz -/
  persistResult : Except PyExc Nat

/-- Model of `make_temp_audio` (utils.py lines 99-107): creates the base
file on disk. -/
def make_temp_audio (s : RS) : RS :=
  { record s .tempCreated with baseExists := true }

/-- Model of `cleanup_audio` (utils.py lines 110-125): `safe_remove` of the
base path and the mp3 path; removal of a nonexistent file is not an error,
and errors are swallowed, so this never raises. -/
def cleanup_audio (s : RS) : RS :=
  { s with baseExists := false, mp3Exists := false,
           events := s.events ++ [Event.cleanupRan] }

/-- Model of `download_audio_from_video` (utils.py lines 131-159): runs the
download; on any exception it cleans up the temporary files and raises
`QuizCreationError(f"Error downloading audio: {e}")`; on success the mp3
file has been written. -/
def download_audio_from_video (env : Env) (s : RS) : Except PyExc Unit × RS :=
  let s := record s .downloadStarted
  match env.downloadExc with
  | some e =>
    let s := { s with mp3Exists := env.mp3OnFailure }
    (.error (.quizCreationError (pys "Error downloading audio: " ++ e.pyStrOf)),
     cleanup_audio s)
  | none => (.ok (), { s with mp3Exists := true })

/-- Model of `get_whisper_model` (utils.py lines 162-205).  On a cache hit
the cached model is returned.  Otherwise the download root is read and
stripped; the timing variable `t0` is bound only inside the
`if download_root:` branch; the model is loaded and assigned to the global;
then `dt = time.time() - t0` is evaluated, which raises `NameError` when
the download root was empty — after the global was already assigned. -/
def get_whisper_model (env : Env) (cache : Option Nat) :
    Except PyExc Nat × Option Nat :=
  match cache with
  | some m => (.ok m, some m)
  | none =>
    let download_root := pyStrip env.whisperDownloadRoot
    match env.whisperLoadResult with
    | .error e => (.error e, none)
    | .ok m =>
      if download_root.isEmpty then
        (.error (.nameError (pys "name t0 is not defined")), some m)
      else
        (.ok m, some m)

/-- Model of `generate_transcript` (utils.py lines 208-237): everything —
loading the model, transcribing, and the two explicit
`QuizCreationError` raises for invalid or empty text — happens inside one
`try:`; on any exception the temporary files are cleaned up and
`QuizCreationError(f"Error transcribing audio: {e}")` is raised (so the two
inner errors are wrapped a second time by their own handler). -/
def generate_transcript (env : Env) (s : RS) : Except PyExc PyStr × RS :=
  match get_whisper_model env s.whisperCache with
  | (.error e, c) =>
    (.error (.quizCreationError (pys "Error transcribing audio: " ++ e.pyStrOf)),
     cleanup_audio { s with whisperCache := c })
  | (.ok _, c) =>
    let s := record { s with whisperCache := c } .transcribeStarted
    match env.transcribeResult with
    | .error e =>
      (.error (.quizCreationError (pys "Error transcribing audio: " ++ e.pyStrOf)),
       cleanup_audio s)
    | .ok textRaw =>
      match textRaw with
      | some (.str t) =>
        if (pyStrip t).isEmpty then
          (.error (.quizCreationError
              (pys "Error transcribing audio: Whisper returned an empty transcript.")),
           cleanup_audio s)
        else
          (.ok (pyStrip t), s)
      | _ =>
        (.error (.quizCreationError
            (pys "Error transcribing audio: Whisper returned invalid transcript text.")),
         cleanup_audio s)

/-- Model of `gemini_client` (utils.py lines 243-250): raises
`QuizCreationError` when the API key is absent or falsy (empty). -/
def gemini_client (env : Env) : Except PyExc Unit :=
  match env.geminiApiKey with
  | none => .error (qce "Missing GEMINI_API_KEY in settings.")
  | some k =>
    if k.isEmpty then .error (qce "Missing GEMINI_API_KEY in settings.") else .ok ()

/-- Model of `get_ai_response` (utils.py lines 304-310): builds the client
(eager key check), then calls the service; an exception from the service
call itself propagates unwrapped. -/
def get_ai_response (env : Env) (s : RS) : Except PyExc (Option JValue) × RS :=
  match gemini_client env with
  | .error e => (.error e, s)
  | .ok _ => (env.aiResp, record s .aiCalled)

/-- Body of the `try:` block of `create_quiz_from_url` (utils.py lines
396-405), from the download up to persistence, threading the world. -/
def pipelineBody (env : Env) (s : RS) : Except PyExc Nat × RS :=
  match download_audio_from_video env s with
  | (.error e, s) => (.error e, s)
  | (.ok _, s) =>
    match generate_transcript env s with
    | (.error e, s) => (.error e, s)
    | (.ok _, s) =>
      match get_ai_response env s with
      | (.error e, s) => (.error e, s)
      | (.ok aiTextRaw, s) =>
        match aiTextRaw with
        | some (.str t) =>
          if (pyStrip t).isEmpty then
            (.error (qce "Gemini returned an empty or invalid response."), s)
          else
            match parse_quiz_json env.jsonDecode t with
            | .error e => (.error e, s)
            | .ok payload =>
              match validate_quiz_payload payload with
              | .error e => (.error e, s)
              | .ok _ =>
                let s := record s .persistStarted
                match env.persistResult with
                | .error e => (.error e, s)
                | .ok quizId => (.ok quizId, s)
        | _ => (.error (qce "Gemini returned an empty or invalid response."), s)

/-- Model of `create_quiz_from_url` (utils.py lines 385-407): normalize,
gate on `is_youtube_url`, create the temporary handle, run the pipeline
body, and in `finally:` always run `cleanup_audio` — also when the body
raised or returned. -/
def create_quiz_from_url (env : Env) (url : PyStr) (cache0 : Option Nat) :
    Except PyExc Nat × RS :=
  let normalized := normalize_youtube_url url
  if ¬ is_youtube_url normalized then
    (.error (.invalidYouTubeUrlError (pys "Not a YouTube URL.")), initRS cache0)
  else
    let s := make_temp_audio (initRS cache0)
    let (res, s) := pipelineBody env s
    (res, cleanup_audio s)

-- -----------------------------
-- Persistence model (utils.py lines 410-437)
-- -----------------------------

/-- One row of the `Quiz` table. -/
structure QuizRow where
  id : Nat
  title : JValue
  description : JValue
  video_url : PyStr
  user : Nat

/-- One row of the `QuizQuestion` table. -/
structure QuestionRow where
  quizId : Nat
  question_title : JValue
  question_options : JValue
  answer : JValue

/-- The database: an id counter and the two tables. -/
structure DB where
  nextId : Nat
  quizzes : List QuizRow
  questions : List QuestionRow

/-- Model of the Django `transaction.atomic` decorator, from its documented
semantics: the wrapped body runs against the database; if it raises, every
write it made is rolled back, so subsequent reads see the database exactly
as it was on entry. -/
def runAtomic {α : Type} (body : DB → Except PyExc (α × DB)) (db : DB) :
    Except PyExc α × DB :=
  match body db with
  | .ok (a, db') => (.ok a, db')
  | .error e => (.error e, db)

/-- Model of Python `d[k]` subscription on a decoded JSON object: the value
when the key is present, `KeyError` otherwise. -/
def pySubscript (fs : List (PyStr × JValue)) (k : PyStr) : Except PyExc JValue :=
  match jget fs k with
  | some v => .ok v
  | none => .error (.keyError k)

/-- The rows built by the `bulk_create` list comprehension (utils.py lines
426-434): each `item` is subscripted for its three fields; the whole list
is built before `bulk_create` runs.  A non-dict item fails subscription
with a `TypeError`. -/
def questionRowsOf (quizId : Nat) : List JValue → Except PyExc (List QuestionRow)
  | [] => .ok []
  | JValue.obj ifs :: t =>
    match pySubscript ifs (pys "question_title") with
    | .error e => .error e
    | .ok qt =>
      match pySubscript ifs (pys "question_options") with
      | .error e => .error e
      | .ok qo =>
        match pySubscript ifs (pys "answer") with
        | .error e => .error e
        | .ok an =>
          match questionRowsOf quizId t with
          | .error e => .error e
          | .ok rows =>
            .ok ({ quizId := quizId, question_title := qt,
                   question_options := qo, answer := an } :: rows)
  | _ :: _ =>
    .error (.otherError (pys "TypeError") (pys "question item is not subscriptable"))

/-- Model of `_persist_quiz` (utils.py lines 410-437): inside one atomic
transaction, create the `Quiz` row from `payload["title"]`,
`payload["description"]`, the video url and the user, then bulk-create the
question rows from `payload["questions"]`.  `bulkExc` is the database
oracle for the `bulk_create` call. -/
def _persist_quiz (bulkExc : Option PyExc) (payload : JValue) (video_url : PyStr)
    (user : Nat) (db : DB) : Except PyExc Nat × DB :=
  runAtomic (fun db =>
    match payload with
    | .obj fs =>
      match pySubscript fs (pys "title") with
      | .error e => .error e
      | .ok titleV =>
        match pySubscript fs (pys "description") with
        | .error e => .error e
        | .ok descV =>
          let quiz : QuizRow :=
            { id := db.nextId, title := titleV, description := descV,
              video_url := video_url, user := user }
          let db1 : DB :=
            { db with nextId := db.nextId + 1, quizzes := quiz :: db.quizzes }
          match pySubscript fs (pys "questions") with
          | .error e => .error e
          | .ok qv =>
            match qv with
            | .arr items =>
              match questionRowsOf quiz.id items with
              | .error e => .error e
              | .ok rows =>
                match bulkExc with
                | some e => .error e
                | none =>
                  .ok (quiz.id, { db1 with questions := db1.questions ++ rows })
            | _ =>
              .error (.otherError (pys "TypeError") (pys "questions is not iterable"))
    | _ => .error (.otherError (pys "TypeError") (pys "payload is not subscriptable")))
    db

-- -----------------------------
-- Claim-side (specification) definitions
-- -----------------------------

/-- The notion the specification has of one well-formed question entry: a mapping
whose `question_title` is a non-empty (post-trim) string, whose
`question_options` is a list of exactly 4 pairwise-distinct strings, each
non-empty post-trim, and whose `answer` is a string verbatim equal to one
of the options. -/
def claimValidQuestion (q : JValue) : Prop :=
  ∃ (fs : List (PyStr × JValue)) (t : PyStr) (ss : List PyStr) (a : PyStr),
    q = JValue.obj fs ∧
    jget fs (pys "question_title") = some (.str t) ∧ pyStrip t ≠ [] ∧
    jget fs (pys "question_options") = some (.arr (ss.map JValue.str)) ∧
    ss.length = 4 ∧ (∀ s ∈ ss, pyStrip s ≠ []) ∧ ss.Nodup ∧
    jget fs (pys "answer") = some (.str a) ∧ a ∈ ss

/-- The notion the specification has of a well-formed payload: a mapping
containing `title`, `description` and `questions`, where `questions` is a
list of exactly 10 well-formed question entries. -/
def claimValid (p : JValue) : Prop :=
  ∃ fs qs,
    p = JValue.obj fs ∧
    (jget fs (pys "title")).isSome ∧ (jget fs (pys "description")).isSome ∧
    jget fs (pys "questions") = some (.arr qs) ∧
    qs.length = 10 ∧ ∀ q ∈ qs, claimValidQuestion q

/-- URL normalization as the specification words it: trim; if the trimmed
URL begins with the short-link form, the result is the canonical watch
form followed by what stood between the short prefix and the first `?`;
otherwise the trimmed input unchanged. -/
def normalizeSpec (u : PyStr) : PyStr :=
  let t := pyStrip u
  if YT_SHORT_PREFIX.isPrefixOf t then
    YT_WATCH_PREFIX ++ (t.takeWhile (fun c => c ≠ '?')).drop YT_SHORT_PREFIX.length
  else t

/-- The two error kinds the specification says the orchestrator surfaces. -/
def isSurfacedKind (e : PyExc) : Prop :=
  (∃ m, e = PyExc.invalidYouTubeUrlError m) ∨ (∃ m, e = PyExc.quizCreationError m)

/-- Number of times `cleanup_audio` ran in a recorded event list. -/
def cleanupCount (evs : List Event) : Nat := evs.count Event.cleanupRan

-- -----------------------------
-- Concrete fixtures used by witnesses and counterexamples
-- -----------------------------

/-- One well-formed question entry, as JSON. -/
def sampleQuestion : JValue :=
  JValue.obj
    [(pys "question_title", .str (pys "What is discussed?")),
     (pys "question_options",
       .arr [.str (pys "A"), .str (pys "B"), .str (pys "C"), .str (pys "D")]),
     (pys "answer", .str (pys "B"))]

/-- A well-formed payload with 10 copies of the sample question. -/
def samplePayload : JValue :=
  JValue.obj
    [(pys "title", .str (pys "T")),
     (pys "description", .str (pys "D")),
     (pys "questions", .arr (List.replicate 10 sampleQuestion))]

/-- A benign collaborator environment in which every stage succeeds. -/
def sampleEnv : Env :=
  { downloadExc := none
    mp3OnFailure := false
    whisperDownloadRoot := pys "/models"
    whisperLoadResult := .ok 7
    transcribeResult := .ok (some (.str (pys " hello world ")))
    geminiApiKey := some (pys "key")
    aiResp := .ok (some (.str (pys "json body")))
    jsonDecode := fun _ => .ok samplePayload
    persistResult := .ok 99 }

/-- An empty database. -/
def sampleDB : DB := { nextId := 0, quizzes := [], questions := [] }

/-- A payload object with the three required keys and given field values
(the `title` and `description` values are arbitrary JSON values). -/
def mkPayload (titleV descV : JValue) (qs : List JValue) : JValue :=
  JValue.obj [(pys "title", titleV), (pys "description", descV),
    (pys "questions", .arr qs)]

-- -----------------------------
-- String-model lemmas
-- -----------------------------

theorem pyReplaceGo_eq (needle rep : PyStr) :
    ∀ (fuel : Nat) (s : PyStr), s.length ≤ fuel →
      pyReplaceGo needle rep fuel s = pyReplace needle rep s := by
  intro fuel
  induction fuel using Nat.strong_induction_on with
  | _ fuel ih =>
    intro s hs
    match fuel, s with
    | f, [] => cases f <;> rfl
    | 0, c :: cs => simp at hs
    | fuel + 1, c :: cs =>
      simp only [List.length_cons] at hs
      show (if 0 < needle.length ∧ needle.isPrefixOf (c :: cs) = true then
          rep ++ pyReplaceGo needle rep fuel ((c :: cs).drop needle.length)
        else c :: pyReplaceGo needle rep fuel cs) = pyReplace needle rep (c :: cs)
      rw [pyReplace]
      show _ = (if 0 < needle.length ∧ needle.isPrefixOf (c :: cs) = true then
          rep ++ pyReplaceGo needle rep cs.length ((c :: cs).drop needle.length)
        else c :: pyReplaceGo needle rep cs.length cs)
      split
      · rename_i h
        have hd : ((c :: cs).drop needle.length).length ≤ cs.length := by
          simp only [List.length_drop, List.length_cons]
          omega
        rw [ih fuel (by omega) _ (by omega), ih cs.length (by omega) _ (by omega)]
      · rw [ih fuel (by omega) _ (by omega), ih cs.length (by omega) _ (by omega)]

theorem pyReplace_cons (needle rep : PyStr) (c : Char) (cs : PyStr) :
    pyReplace needle rep (c :: cs) =
      if 0 < needle.length ∧ needle.isPrefixOf (c :: cs) = true then
        rep ++ pyReplace needle rep ((c :: cs).drop needle.length)
      else c :: pyReplace needle rep cs := by
  show (if 0 < needle.length ∧ needle.isPrefixOf (c :: cs) = true then
      rep ++ pyReplaceGo needle rep cs.length ((c :: cs).drop needle.length)
    else c :: pyReplaceGo needle rep cs.length cs) = _
  split
  · rename_i h
    rw [pyReplaceGo_eq needle rep cs.length _ (by
      simp only [List.length_drop, List.length_cons]
      omega)]
  · rw [pyReplaceGo_eq needle rep cs.length cs le_rfl]

theorem isPrefixOf_eq_true : ∀ {l s : PyStr}, l.isPrefixOf s = true ↔ ∃ t, s = l ++ t := by
  intro l
  induction l with
  | nil =>
    intro s
    simp
  | cons c l' ih =>
    intro s
    cases s with
    | nil => simp [List.isPrefixOf]
    | cons d s' =>
      simp only [List.isPrefixOf, Bool.and_eq_true, beq_iff_eq, ih, List.cons_append,
        List.cons.injEq]
      constructor
      · rintro ⟨rfl, t, rfl⟩
        exact ⟨t, rfl, rfl⟩
      · rintro ⟨t, rfl, rfl⟩
        exact ⟨rfl, t, rfl⟩

theorem pyReplace_of_head (needle rep s : PyStr) (h0 : 0 < needle.length)
    (h : needle.isPrefixOf s = true) :
    pyReplace needle rep s = rep ++ pyReplace needle rep (s.drop needle.length) := by
  cases s with
  | nil =>
    rcases isPrefixOf_eq_true.mp h with ⟨t, ht⟩
    have : needle.length = 0 := by
      have := congrArg List.length ht
      simp at this
      omega
    omega
  | cons c cs =>
    rw [pyReplace_cons, if_pos ⟨h0, h⟩]

theorem pyContains_iff {hay needle : PyStr} :
    pyContains hay needle = true ↔ ∃ u v, hay = u ++ needle ++ v := by
  induction hay with
  | nil =>
    simp only [pyContains, List.isEmpty_iff]
    constructor
    · rintro rfl
      exact ⟨[], [], rfl⟩
    · rintro ⟨u, v, huv⟩
      have hlen := congrArg List.length huv
      simp only [List.length_nil, List.length_append] at hlen
      exact List.eq_nil_of_length_eq_zero (by omega)
  | cons c t ih =>
    simp only [pyContains, Bool.or_eq_true, isPrefixOf_eq_true, ih]
    constructor
    · rintro (⟨r, hr⟩ | ⟨u, v, huv⟩)
      · exact ⟨[], r, by simpa using hr⟩
      · exact ⟨c :: u, v, by simp [huv]⟩
    · rintro ⟨u, v, huv⟩
      cases u with
      | nil =>
        exact Or.inl ⟨v, by simpa using huv⟩
      | cons d u' =>
        rw [List.cons_append, List.cons_append, List.cons.injEq] at huv
        exact Or.inr ⟨u', v, huv.2⟩

theorem pyReplace_no_occ {needle : PyStr} (rep : PyStr) {s : PyStr}
    (h : pyContains s needle = false) : pyReplace needle rep s = s := by
  induction s with
  | nil => rfl
  | cons c cs ih =>
    simp only [pyContains, Bool.or_eq_false_iff] at h
    rw [pyReplace_cons, if_neg (fun hc => by simp [h.1] at hc), ih h.2]

theorem pyReplace_single (b : Char) (s : PyStr) :
    pyReplace [b] [] s = s.filter (fun c => c ≠ b) := by
  induction s with
  | nil => rfl
  | cons c cs ih =>
    rw [pyReplace_cons]
    by_cases hb : b = c
    · subst hb
      rw [if_pos ⟨by simp, by simp [List.isPrefixOf]⟩]
      simpa [List.filter_cons] using ih
    · rw [if_neg (fun hc => by
        rcases isPrefixOf_eq_true.mp hc.2 with ⟨t, ht⟩
        simp only [List.cons_append, List.cons.injEq] at ht
        exact hb ht.1.symm)]
      simp [List.filter_cons, Ne.symm hb, ih]

theorem dropWhile_dropWhile (p : Char → Bool) (l : PyStr) :
    List.dropWhile p (List.dropWhile p l) = List.dropWhile p l := by
  induction l with
  | nil => rfl
  | cons c cs ih =>
    by_cases h : p c
    · simpa [List.dropWhile_cons, h] using ih
    · simp [List.dropWhile_cons, h]

theorem dropWhile_eq_self_of_all (p : Char → Bool) (l : PyStr)
    (h : ∀ c ∈ l, p c = false) : List.dropWhile p l = l := by
  cases l with
  | nil => rfl
  | cons c cs =>
    rw [List.dropWhile_cons, if_neg (by simp [h c (by simp)])]

theorem takeWhile_append_all (p : Char → Bool) (l₁ l₂ : PyStr)
    (h : ∀ c ∈ l₁, p c = true) :
    List.takeWhile p (l₁ ++ l₂) = l₁ ++ List.takeWhile p l₂ := by
  induction l₁ with
  | nil => rfl
  | cons c cs ih =>
    rw [List.cons_append, List.takeWhile_cons, if_pos (h c (by simp)),
      ih fun d hd => h d (by simp [hd]), List.cons_append]

theorem pyLStrip_idem (s : PyStr) : pyLStrip (pyLStrip s) = pyLStrip s :=
  dropWhile_dropWhile _ s

theorem pyRStrip_idem (s : PyStr) : pyRStrip (pyRStrip s) = pyRStrip s := by
  simp [pyRStrip, List.reverse_reverse, dropWhile_dropWhile]

theorem exists_append_rstrip (s : PyStr) : ∃ t, s = pyRStrip s ++ t := by
  rcases List.dropWhile_suffix (l := s.reverse) Char.isWhitespace with ⟨u, hu⟩
  refine ⟨u.reverse, ?_⟩
  have := congrArg List.reverse hu
  simpa [pyRStrip] using this.symm

theorem dropWhile_head_false {p : Char → Bool} {l : PyStr} {c : Char} {cs : PyStr}
    (h : List.dropWhile p l = c :: cs) : p c = false := by
  induction l with
  | nil => simp at h
  | cons d ds ih =>
    rw [List.dropWhile_cons] at h
    by_cases hd : p d
    · exact ih (by simpa [hd] using h)
    · rw [if_neg (by simp [hd])] at h
      cases h
      simpa using hd

theorem pyLStrip_rstrip_of_lstrip {s : PyStr} (h : pyLStrip s = s) :
    pyLStrip (pyRStrip s) = pyRStrip s := by
  cases hr : pyRStrip s with
  | nil => rfl
  | cons c cs =>
    rcases exists_append_rstrip s with ⟨t, ht⟩
    rw [hr] at ht
    have hc : Char.isWhitespace c = false := by
      refine @dropWhile_head_false Char.isWhitespace s c (cs ++ t) ?_
      rw [show List.dropWhile Char.isWhitespace s = pyLStrip s from rfl, h, ht,
        List.cons_append]
    simp [pyLStrip, List.dropWhile_cons, hc]

theorem pyStrip_idem (s : PyStr) : pyStrip (pyStrip s) = pyStrip s := by
  show pyRStrip (pyLStrip (pyRStrip (pyLStrip s))) = pyRStrip (pyLStrip s)
  rw [pyLStrip_rstrip_of_lstrip (pyLStrip_idem s), pyRStrip_idem]

theorem pyRStrip_append_all {p : PyStr} (t : PyStr)
    (h : ∀ c ∈ p, Char.isWhitespace c = false) :
    pyRStrip (p ++ t) = p ++ pyRStrip t := by
  show ((p ++ t).reverse.dropWhile Char.isWhitespace).reverse = _
  rw [List.reverse_append, List.dropWhile_append]
  split
  · rename_i h1
    rw [List.isEmpty_iff] at h1
    rw [dropWhile_eq_self_of_all _ _ (fun c hc => h c (by simpa using hc))]
    show p.reverse.reverse = p ++ pyRStrip t
    rw [List.reverse_reverse]
    show p = p ++ (t.reverse.dropWhile Char.isWhitespace).reverse
    rw [h1]
    simp
  · rw [List.reverse_append, List.reverse_reverse]
    rfl

theorem pyStrip_append_all {p : PyStr} (t : PyStr)
    (h : ∀ c ∈ p, Char.isWhitespace c = false) (hne : p ≠ []) :
    pyStrip (p ++ t) = p ++ pyRStrip t := by
  cases p with
  | nil => exact absurd rfl hne
  | cons c p' =>
    show pyRStrip (pyLStrip ((c :: p') ++ t)) = _
    have hc : Char.isWhitespace c = false := h c (by simp)
    rw [show pyLStrip ((c :: p') ++ t) = (c :: p') ++ t by
      simp [pyLStrip, List.dropWhile_cons, hc]]
    exact pyRStrip_append_all t h

theorem watch_no_short (z : PyStr) :
    YT_SHORT_PREFIX.isPrefixOf (YT_WATCH_PREFIX ++ z) = false := by
  cases h : YT_SHORT_PREFIX.isPrefixOf (YT_WATCH_PREFIX ++ z) with
  | false => rfl
  | true =>
    exfalso
    rcases isPrefixOf_eq_true.mp h with ⟨t, ht⟩
    have h1 : List.take YT_SHORT_PREFIX.length (YT_WATCH_PREFIX ++ z)
        = List.take YT_SHORT_PREFIX.length YT_WATCH_PREFIX := by
      rw [List.take_append_eq_append_take,
        show YT_SHORT_PREFIX.length - YT_WATCH_PREFIX.length = 0 by decide,
        List.take_zero, List.append_nil]
    have h2 : List.take YT_SHORT_PREFIX.length (YT_SHORT_PREFIX ++ t)
        = YT_SHORT_PREFIX := List.take_left _ _
    rw [ht, h2] at h1
    exact absurd h1.symm (by decide)

theorem normalize_branch {u : PyStr}
    (hb : YT_SHORT_PREFIX.isPrefixOf (pyStrip u) = true) :
    normalize_youtube_url u =
      YT_WATCH_PREFIX ++
        pyReplace YT_SHORT_PREFIX YT_WATCH_PREFIX
          (((pyStrip u).takeWhile (fun c => c ≠ '?')).drop YT_SHORT_PREFIX.length) := by
  rcases isPrefixOf_eq_true.mp hb with ⟨r, hr⟩
  have htw : (pyStrip u).takeWhile (fun c => c ≠ '?')
      = YT_SHORT_PREFIX ++ r.takeWhile (fun c => c ≠ '?') := by
    rw [hr]
    exact takeWhile_append_all _ _ _ (by decide)
  show (if YT_SHORT_PREFIX.isPrefixOf (pyStrip u) = true then
      pyReplace YT_SHORT_PREFIX YT_WATCH_PREFIX
        ((pyStrip u).takeWhile (fun c => c ≠ '?'))
    else pyStrip u) = _
  rw [if_pos hb, htw,
    pyReplace_of_head _ _ _ (by decide)
      (isPrefixOf_eq_true.mpr ⟨r.takeWhile (fun c => c ≠ '?'), rfl⟩),
    List.drop_left]

theorem pyStrip_watch_append (t : PyStr) :
    pyStrip (YT_WATCH_PREFIX ++ t) = YT_WATCH_PREFIX ++ pyRStrip t :=
  pyStrip_append_all t (by decide) (by decide)

/-- C5 (counterexample): normalization is not idempotent.  For the input
`"https://youtu.be/abc ?x"` the first pass keeps the space that stood
before the `?` (producing `"https://www.youtube.com/watch?v=abc "`), and
the second pass trims it, so the two results differ. -/
theorem normalize_not_idempotent :
    normalize_youtube_url (normalize_youtube_url (pys "https://youtu.be/abc ?x"))
      ≠ normalize_youtube_url (pys "https://youtu.be/abc ?x") := by decide

/-- C5 (amended): applying `normalize_youtube_url` twice equals applying it
once followed by a trim — `normalize (normalize u) = strip (normalize u)`
for every input, so normalization is idempotent exactly on the inputs whose
normal form carries no surrounding whitespace (every input whose pre-`?`
part has none). -/
theorem normalize_normalize_eq_strip (u : PyStr) :
    normalize_youtube_url (normalize_youtube_url u)
      = pyStrip (normalize_youtube_url u) := by
  by_cases hb : YT_SHORT_PREFIX.isPrefixOf (pyStrip u) = true
  · rw [normalize_branch hb]
    simp only [normalize_youtube_url]
    rw [pyStrip_watch_append, if_neg (by simp [watch_no_short])]
  · have hnu : normalize_youtube_url u = pyStrip u := by
      simp only [normalize_youtube_url]
      rw [if_neg hb]
    rw [hnu]
    simp only [normalize_youtube_url]
    rw [pyStrip_idem, if_neg hb]

/-- C6 (counterexample): the claim reads `normalize_youtube_url` as
rewriting the leading short-link prefix to the canonical watch form; the
code instead calls `str.replace`, which substitutes every occurrence of the
short prefix in the pre-`?` part.  The two disagree on an input that
contains the short prefix twice. -/
theorem normalize_ne_spec :
    normalize_youtube_url (pys "https://youtu.be/https://youtu.be/x")
      ≠ normalizeSpec (pys "https://youtu.be/https://youtu.be/x") := by decide

/-- C6 (amended): `normalize_youtube_url` trims surrounding whitespace and,
when the trimmed URL begins with `https://youtu.be/`, rewrites it to
`https://www.youtube.com/watch?v=` with the query string (everything from
the first `?`) stripped, returning the trimmed input unchanged otherwise —
exactly as the claim states it — for every input in which the short prefix
does not occur again after its leading occurrence (the code replaces every
occurrence, not only the leading one); in particular
`"https://youtu.be/abc123?t=5"` normalizes to
`"https://www.youtube.com/watch?v=abc123"`. -/
theorem normalize_eq_spec :
    (∀ u : PyStr,
        pyContains (((pyStrip u).takeWhile (fun c => c ≠ '?')).drop
            YT_SHORT_PREFIX.length) YT_SHORT_PREFIX = false →
        normalize_youtube_url u = normalizeSpec u) ∧
      normalize_youtube_url (pys "https://youtu.be/abc123?t=5")
        = pys "https://www.youtube.com/watch?v=abc123" := by
  constructor
  · intro u h
    by_cases hb : YT_SHORT_PREFIX.isPrefixOf (pyStrip u) = true
    · rw [normalize_branch hb, pyReplace_no_occ _ h]
      simp only [normalizeSpec]
      rw [if_pos hb]
    · simp only [normalize_youtube_url, normalizeSpec]
      rw [if_neg hb, if_neg hb]
  · decide

/-- C6 (witness): the amended equivalence applied at the claim's own
example URL, whose side condition holds by computation. -/
theorem normalize_eq_spec_witness :
    pyContains (((pyStrip (pys "https://youtu.be/abc123?t=5")).takeWhile
          (fun c => c ≠ '?')).drop YT_SHORT_PREFIX.length) YT_SHORT_PREFIX = false ∧
      normalize_youtube_url (pys "https://youtu.be/abc123?t=5")
        = normalizeSpec (pys "https://youtu.be/abc123?t=5") :=
  ⟨by decide, normalize_eq_spec.1 _ (by decide)⟩

theorem dropWhile_append_all (p : Char → Bool) (l₁ l₂ : PyStr)
    (h : ∀ c ∈ l₁, p c = true) :
    List.dropWhile p (l₁ ++ l₂) = List.dropWhile p l₂ := by
  induction l₁ with
  | nil => rfl
  | cons c cs ih =>
    rw [List.cons_append, List.dropWhile_cons, if_pos (by simp [h c (by simp)]),
      ih fun d hd => h d (by simp [hd])]

/-- C4: `extract_json` returns its input with every character before the
first `{` removed, then every backtick removed, then surrounding whitespace
trimmed — so leading prose without a brace never changes the result and a
fenced JSON object is recovered exactly — and whenever the decoder fails on
the extracted text with message `e`, `parse_quiz_json` raises
`QuizCreationError` whose message embeds `e`. -/
theorem extract_json_parse_quiz_json_spec :
    (∀ pre rest : PyStr, (∀ c ∈ pre, c ≠ '{') →
        extract_json (pre ++ rest) = extract_json rest) ∧
      (∀ s : PyStr, extract_json s
          = pyStrip ((s.dropWhile (fun c => c ≠ '{')).filter (fun c => c ≠ backtick))) ∧
      extract_json (pys "Sure! Here is the quiz:\n```json\n\x7b\"title\": \"T\"\x7d\n```")
        = pys "\x7b\"title\": \"T\"\x7d" ∧
      (∀ (decode : PyStr → Except PyStr JValue) (text : PyStr) (e : PyStr),
          decode (extract_json text) = .error e →
          parse_quiz_json decode text
            = .error (.quizCreationError (pys "Gemini returned invalid JSON: " ++ e))) := by
  refine ⟨?_, ?_, by decide, ?_⟩
  · intro pre rest h
    simp only [extract_json]
    rw [dropWhile_append_all _ _ _ fun c hc => decide_eq_true (h c hc)]
  · intro s
    simp only [extract_json]
    rw [pyReplace_single]
  · intro decode text e h
    simp only [parse_quiz_json, h]

/-- C4 (witness): the theorem applied at concrete inputs — leading prose
before a braceless prefix is dropped, and a decoder that fails with the
CPython message for non-JSON input is wrapped into `QuizCreationError`. -/
theorem extract_json_parse_quiz_json_spec_witness :
    (∀ c ∈ pys "prose: ", c ≠ '{') ∧
      extract_json (pys "prose: " ++ pys "\x7bok\x7d") = extract_json (pys "\x7bok\x7d") ∧
      ((fun _ : PyStr =>
          (Except.error (pys "Expecting value: line 1 column 1 (char 0)")
            : Except PyStr JValue)) (extract_json (pys "not json")) =
        .error (pys "Expecting value: line 1 column 1 (char 0)")) ∧
      parse_quiz_json
          (fun _ => .error (pys "Expecting value: line 1 column 1 (char 0)"))
          (pys "not json")
        = .error (.quizCreationError (pys "Gemini returned invalid JSON: "
            ++ pys "Expecting value: line 1 column 1 (char 0)")) :=
  ⟨by decide,
   extract_json_parse_quiz_json_spec.1 _ _ (by decide),
   rfl,
   extract_json_parse_quiz_json_spec.2.2.2 _ _ _ rfl⟩

-- -----------------------------
-- Host gating (C7)
-- -----------------------------

theorem pyContains_false_of_append {a mid b needle : PyStr}
    (h : pyContains (a ++ mid ++ b) needle = false) :
    pyContains mid needle = false := by
  cases hc : pyContains mid needle with
  | false => rfl
  | true =>
    exfalso
    rcases pyContains_iff.mp hc with ⟨u, v, huv⟩
    have : pyContains (a ++ mid ++ b) needle = true :=
      pyContains_iff.mpr ⟨a ++ u, v ++ b, by simp [huv, List.append_assoc]⟩
    rw [this] at h
    cases h

theorem exists_strip_decomp (s : PyStr) : ∃ a b, s = a ++ pyStrip s ++ b := by
  rcases List.dropWhile_suffix (l := s) Char.isWhitespace with ⟨a, ha⟩
  rcases exists_append_rstrip (pyLStrip s) with ⟨b, hb⟩
  refine ⟨a, b, ?_⟩
  conv_lhs => rw [← ha, show List.dropWhile Char.isWhitespace s = pyLStrip s from rfl, hb]
  rw [pyStrip, List.append_assoc]

theorem pyContains_lower_strip {url needle : PyStr}
    (h : pyContains (pyLower url) needle = false) :
    pyContains (pyLower (pyStrip url)) needle = false := by
  rcases exists_strip_decomp url with ⟨a, b, hab⟩
  have : pyLower url = pyLower a ++ pyLower (pyStrip url) ++ pyLower b := by
    conv_lhs => rw [hab]
    simp [pyLower, List.map_append]
  rw [this] at h
  exact pyContains_false_of_append h

/-- C7: for every URL whose lowercased form contains neither
`"youtube.com/"` nor `"youtu.be/"` as a substring, `is_youtube_url` returns
false, and `create_quiz_from_url` fails with `InvalidYouTubeUrlError`
before any resource is allocated: its final world is the initial one, in
which no temporary file was created and no download, transcription, AI
call, persistence or cleanup ever ran. -/
theorem host_gating (env : Env) (cache0 : Option Nat) (url : PyStr)
    (h1 : pyContains (pyLower url) (pys "youtube.com/") = false)
    (h2 : pyContains (pyLower url) (pys "youtu.be/") = false) :
    is_youtube_url url = false ∧
      create_quiz_from_url env url cache0
        = (.error (.invalidYouTubeUrlError (pys "Not a YouTube URL.")), initRS cache0) ∧
      (create_quiz_from_url env url cache0).2.events = [] := by
  have hb : YT_SHORT_PREFIX.isPrefixOf (pyStrip url) = false := by
    cases hp : YT_SHORT_PREFIX.isPrefixOf (pyStrip url) with
    | false => rfl
    | true =>
      exfalso
      rcases isPrefixOf_eq_true.mp hp with ⟨r, hr⟩
      have hocc : pyContains (pyLower url) (pys "youtu.be/") = true := by
        rcases exists_strip_decomp url with ⟨a, b, hab⟩
        refine pyContains_iff.mpr
          ⟨pyLower a ++ pys "https://", pyLower r ++ pyLower b, ?_⟩
        have : pyLower url
            = pyLower a ++ (pyLower (pys "https://") ++ pyLower (pys "youtu.be/")
              ++ pyLower r) ++ pyLower b := by
          rw [hab, hr, show YT_SHORT_PREFIX = pys "https://" ++ pys "youtu.be/" by decide]
          simp [pyLower, List.map_append]
        rw [this, show pyLower (pys "https://") = pys "https://" by decide,
          show pyLower (pys "youtu.be/") = pys "youtu.be/" by decide]
        simp [List.append_assoc]
      rw [hocc] at h2
      cases h2
  have hnorm : normalize_youtube_url url = pyStrip url := by
    simp only [normalize_youtube_url]
    rw [if_neg (by simp [hb])]
  have hyt : is_youtube_url (normalize_youtube_url url) = false := by
    rw [hnorm]
    simp only [is_youtube_url, Bool.or_eq_false_iff]
    exact ⟨pyContains_lower_strip h1, pyContains_lower_strip h2⟩
  have hcreate : create_quiz_from_url env url cache0
      = (.error (.invalidYouTubeUrlError (pys "Not a YouTube URL.")), initRS cache0) := by
    simp only [create_quiz_from_url]
    rw [if_pos (by simp [hyt])]
  refine ⟨?_, hcreate, by rw [hcreate]; rfl⟩
  simp only [is_youtube_url, Bool.or_eq_false_iff]
  exact ⟨h1, h2⟩

/-- C7 (witness): the gating theorem applied to the example of the specification,
example `"https://vimeo.com/123"` under the benign environment. -/
theorem host_gating_witness :
    pyContains (pyLower (pys "https://vimeo.com/123")) (pys "youtube.com/") = false ∧
      pyContains (pyLower (pys "https://vimeo.com/123")) (pys "youtu.be/") = false ∧
      (is_youtube_url (pys "https://vimeo.com/123") = false ∧
        create_quiz_from_url sampleEnv (pys "https://vimeo.com/123") none
          = (.error (.invalidYouTubeUrlError (pys "Not a YouTube URL.")), initRS none) ∧
        (create_quiz_from_url sampleEnv (pys "https://vimeo.com/123") none).2.events = []) :=
  ⟨by decide, by decide, host_gating sampleEnv none _ (by decide) (by decide)⟩

-- -----------------------------
-- Validation lemmas (C1)
-- -----------------------------

theorem strsOf_map_str (ss : List PyStr) : strsOf (ss.map JValue.str) = ss := by
  rw [strsOf, List.filterMap_map]
  rw [show JValue.asStr ∘ JValue.str = some from rfl, List.filterMap_some]

theorem all_nonEmptyStr_decomp {os : List JValue} (h : os.all isNonEmptyStr = true) :
    os = (strsOf os).map JValue.str ∧ ∀ s ∈ strsOf os, (pyStrip s).isEmpty = false := by
  induction os with
  | nil => exact ⟨rfl, by simp [strsOf]⟩
  | cons o os' ih =>
    simp only [List.all_cons, Bool.and_eq_true] at h
    obtain ⟨h1, h2⟩ := h
    obtain ⟨ih1, ih2⟩ := ih h2
    cases o with
    | null => simp [isNonEmptyStr] at h1
    | bool b => simp [isNonEmptyStr] at h1
    | num n => simp [isNonEmptyStr] at h1
    | arr xs => simp [isNonEmptyStr] at h1
    | obj f => simp [isNonEmptyStr] at h1
    | str s =>
      have hcons : strsOf (JValue.str s :: os') = s :: strsOf os' := by
        simp [strsOf, List.filterMap_cons, JValue.asStr]
      constructor
      · rw [hcons, List.map_cons, ← ih1]
      · intro s' hs'
        rw [hcons, List.mem_cons] at hs'
        rcases hs' with rfl | hs'
        · simpa [isNonEmptyStr] using h1
        · exact ih2 s' hs'

theorem all_nonEmptyStr_of_map {ss : List PyStr} (h : ∀ s ∈ ss, pyStrip s ≠ []) :
    (ss.map JValue.str).all isNonEmptyStr = true := by
  rw [List.all_eq_true]
  intro x hx
  rw [List.mem_map] at hx
  rcases hx with ⟨s, hs, rfl⟩
  simpa [isNonEmptyStr, List.isEmpty_iff] using h s hs

theorem dedup_len_iff {l : List PyStr} (hl : l.length = 4) :
    l.dedup.length = 4 ↔ l.Nodup := by
  constructor
  · intro h
    have := (List.dedup_sublist l).eq_of_length (by omega)
    rw [← this]
    exact List.nodup_dedup l
  · intro h
    rw [List.dedup_eq_self.mpr h, hl]

theorem validate_question_ok_iff (q : JValue) :
    _validate_question q = .ok () ↔ claimValidQuestion q := by
  constructor
  · intro h
    cases q with
    | null => simp [_validate_question] at h
    | bool b => simp [_validate_question] at h
    | num n => simp [_validate_question] at h
    | str s => simp [_validate_question] at h
    | arr xs => simp [_validate_question] at h
    | obj fs =>
      simp only [_validate_question] at h
      split at h
      · rename_i t heqt
        split at h
        · simp at h
        · rename_i hte
          split at h
          · rename_i os heqo
            split at h
            · simp at h
            · rename_i hlen
              split at h
              · simp at h
              · rename_i hall
                split at h
                · simp at h
                · rename_i hded
                  split at h
                  · rename_i a heqa
                    split at h
                    · rename_i hcont
                      obtain ⟨hmap, hne⟩ := all_nonEmptyStr_decomp (not_not.mp hall)
                      have hlen4 : os.length = 4 := not_not.mp hlen
                      have hslen : (strsOf os).length = 4 := by
                        have := congrArg List.length hmap
                        rw [List.length_map] at this
                        omega
                      refine ⟨fs, t, strsOf os, a, rfl, heqt, ?_, ?_, hslen, ?_, ?_,
                        heqa, List.elem_iff.mp hcont⟩
                      · intro hnil
                        exact hte (by rw [hnil]; rfl)
                      · exact heqo.trans (by rw [← hmap])
                      · intro s hs
                        have := hne s hs
                        intro hnil
                        rw [hnil] at this
                        cases this
                      · exact (dedup_len_iff hslen).mp (not_not.mp hded)
                    · simp at h
                  · simp at h
          · simp at h
      · simp at h
  · rintro ⟨fs, t, ss, a, rfl, h1, h2, h3, h4, h5, h6, h7, h8⟩
    have c1 : (pyStrip t).isEmpty = false := by
      cases he : (pyStrip t).isEmpty
      · rfl
      · exact absurd (List.isEmpty_iff.mp he) h2
    have c2 : (ss.map JValue.str).length = 4 := by rw [List.length_map, h4]
    have c3 : (ss.map JValue.str).all isNonEmptyStr = true := all_nonEmptyStr_of_map h5
    have c4 : (strsOf (ss.map JValue.str)).dedup.length = 4 := by
      rw [strsOf_map_str, List.dedup_eq_self.mpr h6, h4]
    have c5 : (strsOf (ss.map JValue.str)).contains a = true := by
      rw [strsOf_map_str]
      exact List.elem_iff.mpr h8
    simp only [_validate_question, h1, h3, h7, c1, c2, c3, c4, c5]
    simp

theorem validateQuestionList_ok_iff (qs : List JValue) :
    validateQuestionList qs = .ok () ↔ ∀ q ∈ qs, _validate_question q = .ok () := by
  induction qs with
  | nil => simp [validateQuestionList]
  | cons q t ih =>
    simp only [validateQuestionList]
    cases hv : _validate_question q with
    | ok u =>
      cases u
      constructor
      · intro h
        intro q' hq'
        rcases List.mem_cons.mp hq' with rfl | hq'
        · exact hv
        · exact (ih.mp h) q' hq'
      · intro h
        exact ih.mpr fun q' hq' => h q' (List.mem_cons_of_mem _ hq')
    | error e =>
      constructor
      · intro h
        cases h
      · intro h
        have := h q (List.mem_cons_self _ _)
        rw [hv] at this
        cases this

/-- C1: `validate_quiz_payload` succeeds exactly on the payloads the
specification calls well-formed: a mapping with keys `title`, `description`
and `questions`, where `questions` is a list of exactly 10 entries, each a
mapping with a non-empty (post-trim) string `question_title`, a list of
exactly 4 pairwise-distinct non-empty (post-trim) string options, and a
string `answer` verbatim (byte-exact) equal to one of the options.  In
particular 9 or 11 questions, a duplicated option, or an answer differing
from every option by case or whitespace are rejected, and a verbatim match
is accepted. -/
theorem validate_quiz_payload_ok_iff (p : JValue) :
    validate_quiz_payload p = .ok () ↔ claimValid p := by
  constructor
  · intro h
    cases p with
    | null => simp [validate_quiz_payload] at h
    | bool b => simp [validate_quiz_payload] at h
    | num n => simp [validate_quiz_payload] at h
    | str s => simp [validate_quiz_payload] at h
    | arr xs => simp [validate_quiz_payload] at h
    | obj fs =>
      simp only [validate_quiz_payload] at h
      split at h
      · simp at h
      · rename_i hkeys
        split at h
        · rename_i qs heqq
          split at h
          · simp at h
          · rename_i hlen
            push_neg at hkeys
            refine ⟨fs, qs, rfl, ?_, ?_, heqq, not_not.mp hlen, ?_⟩
            · cases ho : jget fs (pys "title")
              · exact absurd (by rw [ho]; rfl) hkeys.1
              · rfl
            · cases ho : jget fs (pys "description")
              · exact absurd (by rw [ho]; rfl) hkeys.2.1
              · rfl
            · intro q hq
              exact (validate_question_ok_iff q).mp
                ((validateQuestionList_ok_iff qs).mp h q hq)
        · simp at h
  · rintro ⟨fs, qs, rfl, h1, h2, h3, h4, h5⟩
    simp only [validate_quiz_payload, h3]
    rw [if_neg (by
      push_neg
      refine ⟨?_, ?_, by simp⟩
      · intro he
        rw [Option.isNone_iff_eq_none] at he
        rw [he] at h1
        cases h1
      · intro he
        rw [Option.isNone_iff_eq_none] at he
        rw [he] at h2
        cases h2)]
    rw [if_neg (by omega : ¬ qs.length ≠ 10)]
    exact (validateQuestionList_ok_iff qs).mpr
      fun q hq => (validate_question_ok_iff q).mpr (h5 q hq)

-- -----------------------------
-- Orchestrator lemmas (C2, C3)
-- -----------------------------

theorem cleanupCount_record (s : RS) (ev : Event) (hne : ev ≠ .cleanupRan) :
    cleanupCount (record s ev).events = cleanupCount s.events := by
  simp [cleanupCount, record, List.count_append, List.count_cons, hne]

theorem cleanupCount_cleanup (s : RS) :
    cleanupCount (cleanup_audio s).events = cleanupCount s.events + 1 := by
  simp [cleanupCount, cleanup_audio, List.count_append, List.count_cons]

theorem cleanup_files_gone (s : RS) :
    (cleanup_audio s).baseExists = false ∧ (cleanup_audio s).mp3Exists = false :=
  ⟨rfl, rfl⟩

theorem validate_question_result (q : JValue) :
    _validate_question q = .ok () ∨
      ∃ m, _validate_question q = .error (.quizCreationError m) := by
  unfold _validate_question
  dsimp only
  repeat' split
  all_goals first
    | exact Or.inl rfl
    | exact Or.inr ⟨_, rfl⟩

theorem validateQuestionList_result (qs : List JValue) :
    validateQuestionList qs = .ok () ∨
      ∃ m, validateQuestionList qs = .error (.quizCreationError m) := by
  induction qs with
  | nil => exact Or.inl rfl
  | cons q t ih =>
    rcases validate_question_result q with hq | ⟨m, hq⟩
    · simpa [validateQuestionList, hq] using ih
    · exact Or.inr ⟨m, by simp [validateQuestionList, hq]⟩

theorem validate_payload_result (p : JValue) :
    validate_quiz_payload p = .ok () ∨
      ∃ m, validate_quiz_payload p = .error (.quizCreationError m) := by
  unfold validate_quiz_payload
  repeat' split
  all_goals first
    | exact Or.inl rfl
    | exact Or.inr ⟨_, rfl⟩
    | exact validateQuestionList_result _

theorem parse_quiz_json_result (d : PyStr → Except PyStr JValue) (text : PyStr) :
    (∃ v, parse_quiz_json d text = .ok v) ∨
      ∃ m, parse_quiz_json d text = .error (.quizCreationError m) := by
  unfold parse_quiz_json
  split
  · exact Or.inl ⟨_, rfl⟩
  · exact Or.inr ⟨_, rfl⟩

theorem download_spec (env : Env) (s : RS) :
    (env.downloadExc = none →
        download_audio_from_video env s
          = (.ok (), { record s .downloadStarted with mp3Exists := true })) ∧
      ∀ exc, env.downloadExc = some exc →
        download_audio_from_video env s
          = (.error (.quizCreationError
                (pys "Error downloading audio: " ++ exc.pyStrOf)),
             cleanup_audio
               { record s .downloadStarted with mp3Exists := env.mp3OnFailure }) := by
  constructor
  · intro h
    simp [download_audio_from_video, h]
  · intro exc h
    simp [download_audio_from_video, h]

theorem generate_transcript_results (env : Env) (s : RS) :
    (∃ tr s', generate_transcript env s = (.ok tr, s') ∧
        cleanupCount s'.events = cleanupCount s.events) ∨
      ∃ m s', generate_transcript env s = (.error (.quizCreationError m), s') ∧
        cleanupCount s'.events = cleanupCount s.events + 1 := by
  have hrec : ∀ c : Option Nat,
      cleanupCount (record { s with whisperCache := c } .transcribeStarted).events
        = cleanupCount s.events := fun c => cleanupCount_record _ _ (by decide)
  unfold generate_transcript
  rcases hw : get_whisper_model env s.whisperCache with ⟨res, c⟩
  cases res with
  | error e' =>
    refine Or.inr ⟨_, _, rfl, ?_⟩
    exact cleanupCount_cleanup { s with whisperCache := c }
  | ok m =>
    cases htr : env.transcribeResult with
    | error e2 =>
      refine Or.inr ⟨_, _, rfl, ?_⟩
      rw [cleanupCount_cleanup, hrec]
    | ok textRaw =>
      cases textRaw with
      | none =>
        refine Or.inr ⟨_, _, rfl, ?_⟩
        rw [cleanupCount_cleanup, hrec]
      | some jv =>
        cases jv with
        | str t =>
          cases hemp : (pyStrip t).isEmpty with
          | true =>
            dsimp only
            rw [if_pos hemp]
            refine Or.inr ⟨_, _, rfl, ?_⟩
            rw [cleanupCount_cleanup, hrec]
          | false =>
            dsimp only
            rw [if_neg (by simp [hemp])]
            exact Or.inl ⟨_, _, rfl, hrec c⟩
        | null =>
          refine Or.inr ⟨_, _, rfl, ?_⟩
          rw [cleanupCount_cleanup, hrec]
        | bool b =>
          refine Or.inr ⟨_, _, rfl, ?_⟩
          rw [cleanupCount_cleanup, hrec]
        | num n =>
          refine Or.inr ⟨_, _, rfl, ?_⟩
          rw [cleanupCount_cleanup, hrec]
        | arr xs =>
          refine Or.inr ⟨_, _, rfl, ?_⟩
          rw [cleanupCount_cleanup, hrec]
        | obj f =>
          refine Or.inr ⟨_, _, rfl, ?_⟩
          rw [cleanupCount_cleanup, hrec]

theorem gemini_client_none {env : Env} (hk : env.geminiApiKey = none) :
    gemini_client env = .error (qce "Missing GEMINI_API_KEY in settings.") := by
  simp [gemini_client, hk]

theorem gemini_client_falsy {env : Env} {k : PyStr} (hk : env.geminiApiKey = some k)
    (hke : k.isEmpty = true) :
    gemini_client env = .error (qce "Missing GEMINI_API_KEY in settings.") := by
  simp [gemini_client, hk, hke]

theorem gemini_client_ok {env : Env} {k : PyStr} (hk : env.geminiApiKey = some k)
    (hke : k.isEmpty = false) : gemini_client env = .ok () := by
  simp [gemini_client, hk, hke]

theorem pipelineBody_spec (env : Env) (s : RS) :
    (∀ e, (pipelineBody env s).1 = .error e →
        (∃ m, e = .quizCreationError m) ∨ env.aiResp = .error e ∨
          env.persistResult = .error e) ∧
      cleanupCount (pipelineBody env s).2.events ≤ cleanupCount s.events + 1 := by
  cases hdl : env.downloadExc with
  | some exc =>
    have hd := (download_spec env s).2 exc hdl
    simp only [pipelineBody, hd]
    constructor
    · intro e he
      simp only [Except.error.injEq] at he
      exact Or.inl ⟨_, he.symm⟩
    · rw [cleanupCount_cleanup]
      dsimp only
      rw [cleanupCount_record _ _ (by decide)]
  | none =>
    have hd := (download_spec env s).1 hdl
    have hs1 : cleanupCount ({ record s .downloadStarted with
        mp3Exists := true } : RS).events = cleanupCount s.events := by
      show cleanupCount (record s .downloadStarted).events = cleanupCount s.events
      rw [cleanupCount_record _ _ (by decide)]
    rcases generate_transcript_results env
        { record s .downloadStarted with mp3Exists := true } with
      ⟨tr, s2, hgt, hc2⟩ | ⟨m, s2, hgt, hc2⟩
    · -- transcription succeeded; continue with the AI stage
      simp only [pipelineBody, hd, hgt]
      rw [hs1] at hc2
      cases hk : env.geminiApiKey with
      | none =>
        simp only [get_ai_response, gemini_client_none hk]
        exact ⟨fun e he => Or.inl ⟨_, (Except.error.injEq .. |>.mp he).symm⟩, by omega⟩
      | some k =>
        cases hke : k.isEmpty with
        | true =>
          simp only [get_ai_response, gemini_client_falsy hk hke]
          exact ⟨fun e he => Or.inl ⟨_, (Except.error.injEq .. |>.mp he).symm⟩, by omega⟩
        | false =>
          simp only [get_ai_response, gemini_client_ok hk hke]
          have hrec2 : cleanupCount (record s2 .aiCalled).events = cleanupCount s2.events :=
            cleanupCount_record _ _ (by decide)
          cases har : env.aiResp with
          | error e3 =>
            dsimp only
            refine ⟨fun e he => ?_, by rw [hrec2]; omega⟩
            simp only [Except.error.injEq] at he
            exact Or.inr (Or.inl (by rw [he]))
          | ok aiText =>
            dsimp only
            have hrec3 : cleanupCount (record (record s2 .aiCalled) .persistStarted).events
                = cleanupCount s2.events := by
              rw [cleanupCount_record _ _ (by decide), hrec2]
            cases aiText with
            | none =>
              dsimp only
              exact ⟨fun e he => Or.inl ⟨_, (Except.error.injEq .. |>.mp he).symm⟩,
                by rw [hrec2]; omega⟩
            | some jv =>
              cases jv with
              | str t2 =>
                dsimp only
                cases hemp : (pyStrip t2).isEmpty with
                | true =>
                  rw [if_pos rfl]
                  exact ⟨fun e he => Or.inl ⟨_, (Except.error.injEq .. |>.mp he).symm⟩,
                    by rw [hrec2]; omega⟩
                | false =>
                  rw [if_neg (by simp)]
                  rcases parse_quiz_json_result env.jsonDecode t2 with ⟨v, hp⟩ | ⟨m2, hp⟩
                  · rw [hp]
                    dsimp only
                    rcases validate_payload_result v with hv | ⟨m3, hv⟩
                    · rw [hv]
                      dsimp only
                      cases hpr : env.persistResult with
                      | error e4 =>
                        dsimp only
                        refine ⟨fun e he => ?_, by rw [hrec3]; omega⟩
                        simp only [Except.error.injEq] at he
                        exact Or.inr (Or.inr (by rw [he]))
                      | ok qid =>
                        dsimp only
                        exact ⟨fun e he => by simp at he, by rw [hrec3]; omega⟩
                    · rw [hv]
                      dsimp only
                      exact ⟨fun e he =>
                        Or.inl ⟨_, (Except.error.injEq .. |>.mp he).symm⟩,
                        by rw [hrec2]; omega⟩
                  · rw [hp]
                    dsimp only
                    exact ⟨fun e he =>
                      Or.inl ⟨_, (Except.error.injEq .. |>.mp he).symm⟩,
                      by rw [hrec2]; omega⟩
              | null =>
                dsimp only
                exact ⟨fun e he => Or.inl ⟨_, (Except.error.injEq .. |>.mp he).symm⟩,
                  by rw [hrec2]; omega⟩
              | bool b =>
                dsimp only
                exact ⟨fun e he => Or.inl ⟨_, (Except.error.injEq .. |>.mp he).symm⟩,
                  by rw [hrec2]; omega⟩
              | num n =>
                dsimp only
                exact ⟨fun e he => Or.inl ⟨_, (Except.error.injEq .. |>.mp he).symm⟩,
                  by rw [hrec2]; omega⟩
              | arr xs =>
                dsimp only
                exact ⟨fun e he => Or.inl ⟨_, (Except.error.injEq .. |>.mp he).symm⟩,
                  by rw [hrec2]; omega⟩
              | obj f =>
                dsimp only
                exact ⟨fun e he => Or.inl ⟨_, (Except.error.injEq .. |>.mp he).symm⟩,
                  by rw [hrec2]; omega⟩
    · -- transcription failed
      simp only [pipelineBody, hd, hgt]
      rw [hs1] at hc2
      exact ⟨fun e he => Or.inl ⟨_, (Except.error.injEq .. |>.mp he).symm⟩, by omega⟩

theorem create_spec (env : Env) (url : PyStr) (cache0 : Option Nat)
    (h : is_youtube_url (normalize_youtube_url url) = true) :
    create_quiz_from_url env url cache0
      = ((pipelineBody env (make_temp_audio (initRS cache0))).1,
         cleanup_audio (pipelineBody env (make_temp_audio (initRS cache0))).2) := by
  rcases hX : pipelineBody env (make_temp_audio (initRS cache0)) with ⟨res, s2⟩
  simp [create_quiz_from_url, h, hX]

theorem create_spec_invalid (env : Env) (url : PyStr) (cache0 : Option Nat)
    (h : is_youtube_url (normalize_youtube_url url) = false) :
    create_quiz_from_url env url cache0
      = (.error (.invalidYouTubeUrlError (pys "Not a YouTube URL.")), initRS cache0) := by
  simp [create_quiz_from_url, h]

/-- C2 (counterexample): an exception raised by the generation-service call
is not coerced into `QuizCreationError` — it propagates to the caller
unchanged, so the orchestrator surfaces a third error kind. -/
theorem ai_exception_not_coerced :
    (create_quiz_from_url
        { sampleEnv with aiResp := .error (.otherError (pys "ValueError") (pys "boom")) }
        (pys "https://youtu.be/a") none).1
      = .error (.otherError (pys "ValueError") (pys "boom")) ∧
      ¬ isSurfacedKind (.otherError (pys "ValueError") (pys "boom")) := by
  refine ⟨by decide, ?_⟩
  rintro (⟨m, hm⟩ | ⟨m, hm⟩) <;> cases hm

/-- C2 (amended): every failure of `create_quiz_from_url` is either
`InvalidYouTubeUrlError` (raised only at the URL stage, when the normalized
URL is not recognized), or `QuizCreationError` (download, transcription,
missing API key, empty or malformed response, JSON decoding, validation),
or exactly the exception raised by the generation-service call, or exactly
the exception raised during persistence — the latter two propagate
unchanged instead of being coerced. -/
theorem orchestrator_error_kinds (env : Env) (url : PyStr) (cache0 : Option Nat)
    (e : PyExc) (he : (create_quiz_from_url env url cache0).1 = .error e) :
    (e = .invalidYouTubeUrlError (pys "Not a YouTube URL.")
        ∧ is_youtube_url (normalize_youtube_url url) = false) ∨
      (∃ m, e = .quizCreationError m) ∨
      env.aiResp = .error e ∨ env.persistResult = .error e := by
  cases hyt : is_youtube_url (normalize_youtube_url url) with
  | false =>
    rw [create_spec_invalid env url cache0 hyt] at he
    simp only [Except.error.injEq] at he
    exact Or.inl ⟨he.symm, rfl⟩
  | true =>
    rw [create_spec env url cache0 hyt] at he
    exact Or.inr ((pipelineBody_spec env (make_temp_audio (initRS cache0))).1 e he)

/-- C2 (witness): the amended classification applied to a run whose
download fails — the surfaced error is a `QuizCreationError`. -/
theorem orchestrator_error_kinds_witness :
    (create_quiz_from_url
        { sampleEnv with downloadExc := some (.otherError (pys "DownloadError") (pys "boom")) }
        (pys "https://youtu.be/a") none).1
      = .error (.quizCreationError (pys "Error downloading audio: boom")) ∧
      ((.quizCreationError (pys "Error downloading audio: boom")
            = PyExc.invalidYouTubeUrlError (pys "Not a YouTube URL.")
          ∧ is_youtube_url (normalize_youtube_url (pys "https://youtu.be/a")) = false) ∨
        (∃ m, PyExc.quizCreationError (pys "Error downloading audio: boom")
            = .quizCreationError m) ∨
        ({ sampleEnv with downloadExc := some (.otherError (pys "DownloadError") (pys "boom")) }
            : Env).aiResp = .error (.quizCreationError (pys "Error downloading audio: boom")) ∨
        ({ sampleEnv with downloadExc := some (.otherError (pys "DownloadError") (pys "boom")) }
            : Env).persistResult
          = .error (.quizCreationError (pys "Error downloading audio: boom"))) :=
  ⟨by decide, orchestrator_error_kinds _ _ none _ (by decide)⟩

/-- C3 (counterexample): when the download stage fails, `cleanup_audio`
runs twice — once in the download error handler and once in the
orchestrator `finally:` block — so the cleanup is not executed exactly once. -/
theorem cleanup_runs_twice_on_download_failure :
    (create_quiz_from_url
        { sampleEnv with downloadExc := some (.otherError (pys "SSLError") (pys "cert")) }
        (pys "https://youtu.be/b") none).1
      = .error (.quizCreationError (pys "Error downloading audio: cert")) ∧
      cleanupCount (create_quiz_from_url
        { sampleEnv with downloadExc := some (.otherError (pys "SSLError") (pys "cert")) }
        (pys "https://youtu.be/b") none).2.events = 2 :=
  ⟨by decide, by decide⟩

/-- C3 (amended): on every exit path of `create_quiz_from_url` — success,
validation failure, or any exception — both the temporary base file and the
derived MP3 file are removed, and on every run that reaches the download
stage the temporary audio handle's cleanup is executed at least once and at
most twice (twice exactly when the download or transcription handler
already cleaned up before the `finally:` block ran; removal of a
nonexistent file is not an error, so the repetition is harmless). -/
theorem cleanup_guarantee (env : Env) (url : PyStr) (cache0 : Option Nat) :
    ((create_quiz_from_url env url cache0).2.baseExists = false ∧
        (create_quiz_from_url env url cache0).2.mp3Exists = false) ∧
      (is_youtube_url (normalize_youtube_url url) = true →
        1 ≤ cleanupCount (create_quiz_from_url env url cache0).2.events ∧
          cleanupCount (create_quiz_from_url env url cache0).2.events ≤ 2) := by
  cases hyt : is_youtube_url (normalize_youtube_url url) with
  | false =>
    rw [create_spec_invalid env url cache0 hyt]
    exact ⟨⟨rfl, rfl⟩, fun h => nomatch h⟩
  | true =>
    rw [create_spec env url cache0 hyt]
    refine ⟨⟨rfl, rfl⟩, fun _ => ?_⟩
    have hb := (pipelineBody_spec env (make_temp_audio (initRS cache0))).2
    have hmk : cleanupCount (make_temp_audio (initRS cache0)).events = 0 := rfl
    rw [cleanupCount_cleanup]
    omega

/-- C3 (witness): the amended cleanup guarantee applied to a benign run of
a recognized URL. -/
theorem cleanup_guarantee_witness :
    (((create_quiz_from_url sampleEnv (pys "https://youtu.be/a") none).2.baseExists = false ∧
        (create_quiz_from_url sampleEnv (pys "https://youtu.be/a") none).2.mp3Exists = false) ∧
      (1 ≤ cleanupCount (create_quiz_from_url sampleEnv (pys "https://youtu.be/a") none).2.events ∧
        cleanupCount (create_quiz_from_url sampleEnv (pys "https://youtu.be/a") none).2.events ≤ 2)) :=
  ⟨(cleanup_guarantee sampleEnv (pys "https://youtu.be/a") none).1,
   (cleanup_guarantee sampleEnv (pys "https://youtu.be/a") none).2 (by decide)⟩

-- -----------------------------
-- Whisper loading bug (C9)
-- -----------------------------

/-- C9: when the whisper cache is cold and the configured download root is
empty (or whitespace-only) after stripping, `get_whisper_model` assigns the
loaded model to the process-wide cache and then raises a `NameError`,
because `t0` is bound only inside the non-empty-download-root branch; the
first transcription of such a process therefore fails, surfaced by
`generate_transcript` as a `QuizCreationError`, while any subsequent call
finds the cached model and succeeds. -/
theorem whisper_t0_bug (env : Env) (m : Nat) (t : PyStr)
    (hroot : pyStrip env.whisperDownloadRoot = [])
    (hload : env.whisperLoadResult = .ok m)
    (htr : env.transcribeResult = .ok (some (.str t)))
    (hne : (pyStrip t).isEmpty = false) :
    get_whisper_model env none
        = (.error (.nameError (pys "name t0 is not defined")), some m) ∧
      (∀ s : RS, s.whisperCache = none →
        (generate_transcript env s).1
            = .error (.quizCreationError
                (pys "Error transcribing audio: name t0 is not defined")) ∧
          (generate_transcript env s).2.whisperCache = some m) ∧
      get_whisper_model env (some m) = (.ok m, some m) ∧
      ∀ s : RS, s.whisperCache = some m →
        (generate_transcript env s).1 = .ok (pyStrip t) := by
  have hg : get_whisper_model env none
      = (.error (.nameError (pys "name t0 is not defined")), some m) := by
    simp only [get_whisper_model, hload]
    rw [if_pos (by rw [hroot]; rfl)]
  refine ⟨hg, ?_, rfl, ?_⟩
  · intro s hs
    unfold generate_transcript
    rw [hs, hg]
    refine ⟨?_, rfl⟩
    dsimp only
    decide
  · intro s hs
    unfold generate_transcript
    rw [hs]
    dsimp only [get_whisper_model]
    rw [htr]
    dsimp only
    rw [if_neg (by simp [hne])]

/-- C9 (witness): the bug exercised on a concrete environment whose
download root is whitespace-only: the cold call raises the name error but
caches model 7; the first transcription fails as a `QuizCreationError`; the
warm call returns the cached model and the next transcription succeeds. -/
theorem whisper_t0_bug_witness :
    get_whisper_model { sampleEnv with whisperDownloadRoot := pys "  " } none
        = (.error (.nameError (pys "name t0 is not defined")), some 7) ∧
      (generate_transcript { sampleEnv with whisperDownloadRoot := pys "  " }
          (initRS none)).1
        = .error (.quizCreationError
            (pys "Error transcribing audio: name t0 is not defined")) ∧
      (generate_transcript { sampleEnv with whisperDownloadRoot := pys "  " }
          (initRS none)).2.whisperCache = some 7 ∧
      get_whisper_model { sampleEnv with whisperDownloadRoot := pys "  " } (some 7)
        = (.ok 7, some 7) ∧
      (generate_transcript { sampleEnv with whisperDownloadRoot := pys "  " }
          (initRS (some 7))).1 = .ok (pyStrip (pys " hello world ")) := by
  have h := whisper_t0_bug { sampleEnv with whisperDownloadRoot := pys "  " } 7
    (pys " hello world ") (by decide) rfl rfl (by decide)
  exact ⟨h.1, (h.2.1 (initRS none) rfl).1, (h.2.1 (initRS none) rfl).2, h.2.2.1,
    h.2.2.2 (initRS (some 7)) rfl⟩

-- -----------------------------
-- Persistence lemmas (C8, C10)
-- -----------------------------

theorem questionRowsOf_ok {qs : List JValue} (qid : Nat)
    (h : ∀ q ∈ qs, _validate_question q = .ok ()) :
    ∃ rows, questionRowsOf qid qs = .ok rows ∧ rows.length = qs.length ∧
      ∀ r ∈ rows, r.quizId = qid := by
  induction qs with
  | nil => exact ⟨[], rfl, rfl, by simp⟩
  | cons q t ih =>
    have hq := h q (List.mem_cons_self _ _)
    rcases (validate_question_ok_iff q).mp hq with
      ⟨fs, tt, ss, a, rfl, h1, h2, h3, h4, h5, h6, h7, h8⟩
    rcases ih (fun q' hq' => h q' (List.mem_cons_of_mem _ hq')) with
      ⟨rows, hrows, hlen, hqid⟩
    refine ⟨QuestionRow.mk qid (JValue.str tt) (JValue.arr (ss.map JValue.str))
        (JValue.str a) :: rows,
      ?_, by simp [hlen], ?_⟩
    · simp only [questionRowsOf, pySubscript, h1, h3, h7, hrows]
    · intro r hr
      rcases List.mem_cons.mp hr with rfl | hr
      · rfl
      · exact hqid r hr

theorem validate_ok_shape {p : JValue} (h : validate_quiz_payload p = .ok ()) :
    ∃ fs tv dv qs, p = JValue.obj fs ∧ jget fs (pys "title") = some tv ∧
      jget fs (pys "description") = some dv ∧
      jget fs (pys "questions") = some (.arr qs) ∧
      qs.length = 10 ∧ validateQuestionList qs = .ok () := by
  cases p with
  | null => simp [validate_quiz_payload] at h
  | bool b => simp [validate_quiz_payload] at h
  | num n => simp [validate_quiz_payload] at h
  | str s => simp [validate_quiz_payload] at h
  | arr xs => simp [validate_quiz_payload] at h
  | obj fs =>
    simp only [validate_quiz_payload] at h
    split at h
    · simp at h
    · rename_i hkeys
      split at h
      · rename_i qs heqq
        split at h
        · simp at h
        · rename_i hlen
          push_neg at hkeys
          obtain ⟨hk1, hk2, hk3⟩ := hkeys
          cases ht : jget fs (pys "title") with
          | none => exact absurd (by rw [ht]; rfl) hk1
          | some tv =>
            cases hd : jget fs (pys "description") with
            | none => exact absurd (by rw [hd]; rfl) hk2
            | some dv =>
              exact ⟨fs, tv, dv, qs, rfl, ht, hd, heqq, not_not.mp hlen, h⟩
      · simp at h

/-- C8: under the documented Django `transaction.atomic` semantics (rollback
of every write when the body raises), `_persist_quiz` is all-or-nothing for
every validated payload: if the question `bulk_create` raises, the database
is exactly as before — no Quiz row is visible without its questions — and
on success one Quiz row and its 10 QuizQuestion rows referencing it are
visible. -/
theorem persist_quiz_atomic (payload : JValue) (video_url : PyStr) (user : Nat)
    (db : DB) (hv : validate_quiz_payload payload = .ok ()) :
    (∀ exc, _persist_quiz (some exc) payload video_url user db = (.error exc, db)) ∧
      ∃ tv dv rows db',
        _persist_quiz none payload video_url user db = (.ok db.nextId, db') ∧
          db' = DB.mk (db.nextId + 1)
              (QuizRow.mk db.nextId tv dv video_url user :: db.quizzes)
              (db.questions ++ rows) ∧
          rows.length = 10 ∧ ∀ r ∈ rows, r.quizId = db.nextId := by
  rcases validate_ok_shape hv with ⟨fs, tv, dv, qs, rfl, h1, h2, h3, h4, h5⟩
  rcases questionRowsOf_ok db.nextId
      (fun q hq => (validateQuestionList_ok_iff qs).mp h5 q hq) with
    ⟨rows, hrows, hrlen, hrq⟩
  have e1 : pySubscript fs (pys "title") = .ok tv := by
    simp [pySubscript, h1]
  have e2 : pySubscript fs (pys "description") = .ok dv := by
    simp [pySubscript, h2]
  have e3 : pySubscript fs (pys "questions") = .ok (.arr qs) := by
    simp [pySubscript, h3]
  constructor
  · intro exc
    simp only [_persist_quiz, runAtomic, e1, e2, e3, hrows]
  · refine ⟨tv, dv, rows, _, ?_, rfl, by omega, hrq⟩
    simp only [_persist_quiz, runAtomic, e1, e2, e3, hrows]

/-- C8 (witness): the atomicity theorem applied to the sample payload over
an empty database — a failing `bulk_create` leaves the database untouched,
a successful run creates the quiz with its 10 questions. -/
theorem persist_quiz_atomic_witness :
    _persist_quiz (some (.otherError (pys "DatabaseError") (pys "connection lost")))
        samplePayload (pys "https://www.youtube.com/watch?v=abc") 1 sampleDB
      = (.error (.otherError (pys "DatabaseError") (pys "connection lost")), sampleDB) ∧
      ∃ tv dv rows db',
        _persist_quiz none samplePayload
            (pys "https://www.youtube.com/watch?v=abc") 1 sampleDB
          = (.ok sampleDB.nextId, db') ∧
          db' = DB.mk (sampleDB.nextId + 1)
              (QuizRow.mk sampleDB.nextId tv dv
                (pys "https://www.youtube.com/watch?v=abc") 1 :: sampleDB.quizzes)
              (sampleDB.questions ++ rows) ∧
          rows.length = 10 ∧ ∀ r ∈ rows, r.quizId = sampleDB.nextId :=
  ⟨(persist_quiz_atomic samplePayload
      (pys "https://www.youtube.com/watch?v=abc") 1 sampleDB (by decide)).1 _,
   (persist_quiz_atomic samplePayload
      (pys "https://www.youtube.com/watch?v=abc") 1 sampleDB (by decide)).2⟩

/-- C10: `validate_quiz_payload` checks only the presence of the `title`
and `description` keys, never their types or lengths: a payload whose other
parts are well-formed passes validation with any JSON values in those two
fields — a number, null, an object, a string of any length — and the
persistence step stores exactly those values, unchanged, in the created
Quiz row. -/
theorem title_description_unchecked (titleV descV : JValue) (qs : List JValue)
    (video_url : PyStr) (user : Nat) (db : DB)
    (hq : validateQuestionList qs = .ok ()) (hlen : qs.length = 10) :
    validate_quiz_payload (mkPayload titleV descV qs) = .ok () ∧
      ∃ db', _persist_quiz none (mkPayload titleV descV qs) video_url user db
          = (.ok db.nextId, db') ∧
        db'.quizzes.head?
          = some (QuizRow.mk db.nextId titleV descV video_url user) := by
  have hred : validate_quiz_payload (mkPayload titleV descV qs)
      = if qs.length ≠ 10 then
          .error (qce "Gemini payload must contain exactly 10 questions.")
        else validateQuestionList qs := rfl
  constructor
  · rw [hred, if_neg (by omega), hq]
  · rcases questionRowsOf_ok db.nextId
        (fun q hqm => (validateQuestionList_ok_iff qs).mp hq q hqm) with
      ⟨rows, hrows, hrlen, hrq⟩
    have e1 : pySubscript [(pys "title", titleV), (pys "description", descV),
        (pys "questions", JValue.arr qs)] (pys "title") = .ok titleV := rfl
    have e2 : pySubscript [(pys "title", titleV), (pys "description", descV),
        (pys "questions", JValue.arr qs)] (pys "description") = .ok descV := rfl
    have e3 : pySubscript [(pys "title", titleV), (pys "description", descV),
        (pys "questions", JValue.arr qs)] (pys "questions") = .ok (JValue.arr qs) := rfl
    refine ⟨DB.mk (db.nextId + 1)
        (QuizRow.mk db.nextId titleV descV video_url user :: db.quizzes)
        (db.questions ++ rows), ?_, rfl⟩
    simp only [_persist_quiz, runAtomic, mkPayload, e1, e2, e3, hrows]

/-- C10 (witness): a payload whose title is the number 42 and whose
description is null passes validation and is persisted with exactly those
values in the Quiz row. -/
theorem title_description_unchecked_witness :
    validate_quiz_payload
        (mkPayload (.num 42) .null (List.replicate 10 sampleQuestion)) = .ok () ∧
      ∃ db', _persist_quiz none
            (mkPayload (.num 42) .null (List.replicate 10 sampleQuestion))
            (pys "u") 0 sampleDB
          = (.ok sampleDB.nextId, db') ∧
        db'.quizzes.head?
          = some (QuizRow.mk sampleDB.nextId (.num 42) .null (pys "u") 0) :=
  title_description_unchecked (.num 42) .null (List.replicate 10 sampleQuestion)
    (pys "u") 0 sampleDB (by decide) (by decide)

end Quizly
